import Mathlib

/-!
Shallow embedding of the admission-control layer of the repository:
`src/circuit_breaker.py` (CircuitBreaker, CircuitBreakerManager) and
`src/rate_limiter.py` (RateLimiter), together with proofs of the spec
claims about them.

Modelling conventions:
* wall-clock timestamps (Python `time.time()` floats) are rationals `ℚ`,
  passed explicitly to each operation that reads the clock;
* request weights (Python ints) are integers `ℤ`, counters are `Nat`;
* Python `deque(maxlen=w)` is a list with eviction from the front on append;
* the wrapped operation of `CircuitBreaker.call` is abstracted by the
  boolean `opSucceeds` (whether `func(*args, **kwargs)` returns normally);
* log statements have no observable effect and are omitted; in
  `_on_failure` the windowed `failure_rate` is computed only to be logged,
  but the `len(recent_results) >= window_size` guard it lives under also
  encloses the trip decision, and that guard is kept faithfully.
-/

namespace CopyTrading

/-- Circuit breaker states (`CircuitState` enum in `circuit_breaker.py`). -/
inductive CircuitState where
  | CLOSED
  | OPEN
  | HALF_OPEN
deriving DecidableEq, Repr

/-- State of one `CircuitBreaker` instance: configuration fields, mutable
state and the cumulative statistics counters, exactly the attributes set
in `CircuitBreaker.__init__`. -/
structure CircuitBreaker where
  name : String
  failure_threshold : Nat
  success_threshold : Nat
  timeout : ℚ
  window_size : Nat
  state : CircuitState
  failure_count : Nat
  success_count : Nat
  last_failure_time : Option ℚ
  last_state_change : ℚ
  recent_results : List Bool
  total_calls : Nat
  total_successes : Nat
  total_failures : Nat
  total_rejections : Nat
deriving DecidableEq, Repr

/-- `CircuitBreaker.__init__(name, failure_threshold, success_threshold,
timeout, window_size)`; `t0` is the construction-time `time.time()`. -/
def mkCircuitBreaker (name : String) (failure_threshold success_threshold : Nat)
    (timeout : ℚ) (window_size : Nat) (t0 : ℚ) : CircuitBreaker :=
  { name := name
    failure_threshold := failure_threshold
    success_threshold := success_threshold
    timeout := timeout
    window_size := window_size
    state := CircuitState.CLOSED
    failure_count := 0
    success_count := 0
    last_failure_time := none
    last_state_change := t0
    recent_results := []
    total_calls := 0
    total_successes := 0
    total_failures := 0
    total_rejections := 0 }

/-- Append to a Python `deque(maxlen := maxlen)`: push on the right,
evicting from the left when the buffer exceeds capacity. -/
def dequeAppend (maxlen : Nat) (xs : List Bool) (b : Bool) : List Bool :=
  let ys := xs ++ [b]
  if maxlen < ys.length then ys.drop (ys.length - maxlen) else ys

namespace CircuitBreaker

/-- `CircuitBreaker._on_success` (lines 119-140): bump `total_successes`,
record `True` in the sliding window, then the HALF_OPEN / CLOSED branches.
`now` is the `time.time()` read for `last_state_change`. -/
def on_success (cb : CircuitBreaker) (now : ℚ) : CircuitBreaker :=
  let cb := { cb with
    total_successes := cb.total_successes + 1
    recent_results := dequeAppend cb.window_size cb.recent_results true }
  if cb.state = CircuitState.HALF_OPEN then
    let cb := { cb with success_count := cb.success_count + 1 }
    if cb.success_threshold ≤ cb.success_count then
      { cb with
        state := CircuitState.CLOSED
        failure_count := 0
        success_count := 0
        last_state_change := now }
    else cb
  else if cb.state = CircuitState.CLOSED then
    { cb with failure_count := 0 }
  else cb

/-- `CircuitBreaker._on_failure` (lines 142-170): bump `total_failures`,
record `False`, bump the consecutive `failure_count`, stamp
`last_failure_time`, then the HALF_OPEN / CLOSED branches.  Note that in
the CLOSED branch the source nests the `failure_count >= failure_threshold`
trip check inside `if len(self.recent_results) >= self.window_size:` (the
guard that also encloses the logging-only `failure_rate` computation). -/
def on_failure (cb : CircuitBreaker) (now : ℚ) : CircuitBreaker :=
  let cb := { cb with
    total_failures := cb.total_failures + 1
    recent_results := dequeAppend cb.window_size cb.recent_results false
    failure_count := cb.failure_count + 1
    last_failure_time := some now }
  if cb.state = CircuitState.HALF_OPEN then
    { cb with
      state := CircuitState.OPEN
      success_count := 0
      last_state_change := now }
  else if cb.state = CircuitState.CLOSED then
    if cb.window_size ≤ cb.recent_results.length then
      if cb.failure_threshold ≤ cb.failure_count then
        { cb with
          state := CircuitState.OPEN
          last_state_change := now }
      else cb
    else cb
  else cb

/-- Outcome of the locked admission phase of `call` (lines 91-107). -/
inductive AdmitResult where
  | proceed
  | rejected (name : String) (retryAfter : ℚ)
  | typeError
deriving DecidableEq, Repr

/-- Locked admission phase of `CircuitBreaker.call` (lines 91-107):
bump `total_calls`; if OPEN, either move to HALF_OPEN when `timeout` has
elapsed since `last_failure_time`, or count a rejection and raise the
generic "circuit is OPEN" exception whose message carries the breaker
name and the configured `timeout`.  An OPEN breaker with
`last_failure_time is None` would make `time.time() - None` raise a
`TypeError`; that (unreachable) branch is `typeError`. -/
def callAdmit (cb : CircuitBreaker) (now : ℚ) : CircuitBreaker × AdmitResult :=
  let cb := { cb with total_calls := cb.total_calls + 1 }
  if cb.state = CircuitState.OPEN then
    match cb.last_failure_time with
    | some lft =>
        if cb.timeout ≤ now - lft then
          ({ cb with
              state := CircuitState.HALF_OPEN
              success_count := 0
              last_state_change := now }, AdmitResult.proceed)
        else
          ({ cb with total_rejections := cb.total_rejections + 1 },
            AdmitResult.rejected cb.name cb.timeout)
    | none => (cb, AdmitResult.typeError)
  else (cb, AdmitResult.proceed)

/-- Result of a completed `call` invocation as seen by the caller. -/
inductive CallResult where
  | rejected (name : String) (retryAfter : ℚ)
  | returned
  | raised
  | crashed
deriving DecidableEq, Repr

/-- `CircuitBreaker.call(func, ...)` (lines 77-117): admission under the
lock, then — when admitted — invocation of the wrapped operation, whose
outcome `opSucceeds` routes to `_on_success` / `_on_failure` (taking their
own `time.time()` reading `now2`). -/
def call (cb : CircuitBreaker) (now : ℚ) (opSucceeds : Bool) (now2 : ℚ) :
    CircuitBreaker × CallResult :=
  match callAdmit cb now with
  | (cb, AdmitResult.proceed) =>
      if opSucceeds then (cb.on_success now2, CallResult.returned)
      else (cb.on_failure now2, CallResult.raised)
  | (cb, AdmitResult.rejected n r) => (cb, CallResult.rejected n r)
  | (cb, AdmitResult.typeError) => (cb, CallResult.crashed)

/-- `CircuitBreaker.reset` (lines 172-180). -/
def reset (cb : CircuitBreaker) (now : ℚ) : CircuitBreaker :=
  { cb with
    state := CircuitState.CLOSED
    failure_count := 0
    success_count := 0
    recent_results := []
    last_state_change := now }

/-- The statistics dictionary returned by `CircuitBreaker.get_statistics`
(lines 187-204). -/
structure Statistics where
  name : String
  state : CircuitState
  total_calls : Nat
  total_successes : Nat
  total_failures : Nat
  total_rejections : Nat
  failure_count : Nat
  success_count : Nat
  success_rate : ℚ
  current_state_duration : ℚ
  last_failure_time : Option ℚ
deriving DecidableEq, Repr

/-- `CircuitBreaker.get_statistics` (lines 187-204): a snapshot of the
breaker under its lock; returned paired with the post-call breaker state
to make the read-only nature of the method a provable statement. -/
def get_statistics (cb : CircuitBreaker) (now : ℚ) :
    Statistics × CircuitBreaker :=
  ({ name := cb.name
     state := cb.state
     total_calls := cb.total_calls
     total_successes := cb.total_successes
     total_failures := cb.total_failures
     total_rejections := cb.total_rejections
     failure_count := cb.failure_count
     success_count := cb.success_count
     success_rate :=
       if 0 < cb.total_calls then
         (cb.total_successes : ℚ) / (cb.total_calls : ℚ) * 100
       else 0
     current_state_duration := now - cb.last_state_change
     last_failure_time := cb.last_failure_time }, cb)

end CircuitBreaker

/-- `CircuitBreakerManager` (lines 207-242): the name-keyed registry of
breakers; the Python `dict[str, CircuitBreaker]` is modelled as a map. -/
structure CircuitBreakerManager where
  breakers : String → Option CircuitBreaker

/-- `CircuitBreakerManager.__init__`: empty registry. -/
def mkCircuitBreakerManager : CircuitBreakerManager :=
  { breakers := fun _ => none }

namespace CircuitBreakerManager

/-- `CircuitBreakerManager.get_breaker(name, failure_threshold, timeout)`
(lines 214-228): return the existing breaker for `name`, otherwise
construct one with the given configuration (and `CircuitBreaker.__init__`
defaults `success_threshold=2`, `window_size=10`) and register it.
`t0` is the construction-time `time.time()`. -/
def get_breaker (m : CircuitBreakerManager) (name : String)
    (failure_threshold : Nat) (timeout : ℚ) (t0 : ℚ) :
    CircuitBreakerManager × CircuitBreaker :=
  match m.breakers name with
  | some b => (m, b)
  | none =>
      let b := mkCircuitBreaker name failure_threshold 2 timeout 10 t0
      ({ breakers := fun n => if n = name then some b else m.breakers n }, b)

end CircuitBreakerManager

/-- State of the `RateLimiter` in `rate_limiter.py`: configuration, the
`weight_history` deque of `(timestamp, weight)` pairs, and the statistics
counters, exactly the attributes set in `RateLimiter.__init__`. -/
structure RateLimiter where
  weight_limit : ℤ
  window_seconds : ℚ
  safety_margin : ℚ
  effective_limit : ℤ
  weight_history : List (ℚ × ℤ)
  total_requests : Nat
  total_weight_used : ℤ
  wait_count : Nat
  total_wait_time : ℚ
deriving DecidableEq, Repr

/-- `RateLimiter.__init__(weight_limit, window_seconds, safety_margin)`:
the derived `effective_limit = int(weight_limit * safety_margin)`. -/
def mkRateLimiter (weight_limit : ℤ) (window_seconds safety_margin : ℚ) :
    RateLimiter :=
  { weight_limit := weight_limit
    window_seconds := window_seconds
    safety_margin := safety_margin
    effective_limit := ⌊(weight_limit : ℚ) * safety_margin⌋
    weight_history := []
    total_requests := 0
    total_weight_used := 0
    wait_count := 0
    total_wait_time := 0 }

namespace RateLimiter

/-- `RateLimiter._cleanup_old_entries` (lines 53-58): pop entries from the
front of `weight_history` while their timestamp is older than
`current_time - window_seconds`. -/
def cleanup_old_entries (history : List (ℚ × ℤ)) (current_time window_seconds : ℚ) :
    List (ℚ × ℤ) :=
  history.dropWhile (fun e => e.1 < current_time - window_seconds)

/-- Sum of the weights of the history entries. -/
def sumWeights (history : List (ℚ × ℤ)) : ℤ :=
  (history.map Prod.snd).sum

/-- `RateLimiter._get_current_weight` (lines 60-63): prune, then sum the
weights in the window.  Returns the pruned history together with the sum,
since the pruning mutates `weight_history` in the source. -/
def get_current_weight (history : List (ℚ × ℤ)) (current_time window_seconds : ℚ) :
    List (ℚ × ℤ) × ℤ :=
  let h := cleanup_old_entries history current_time window_seconds
  (h, sumWeights h)

/-- `RateLimiter.wait_if_needed(weight)` (lines 65-106).  `now` is the
`time.time()` read on entry; the blocking `time.sleep(wait_time)` is
modelled as advancing the clock by exactly `wait_time`.  Faithful to the
source, the positive-wait branch returns `wait_time` directly after the
post-sleep pruning, without reaching the "record this request" block. -/
def wait_if_needed (rl : RateLimiter) (now : ℚ) (weight : ℤ) :
    RateLimiter × ℚ :=
  let h := cleanup_old_entries rl.weight_history now rl.window_seconds
  let current_weight := sumWeights h
  let record : RateLimiter × ℚ :=
    ({ rl with
        weight_history := h ++ [(now, weight)]
        total_requests := rl.total_requests + 1
        total_weight_used := rl.total_weight_used + weight }, 0)
  if rl.effective_limit < current_weight + weight then
    match h with
    | (oldest_time, _) :: _ =>
        let wait_time := oldest_time + rl.window_seconds - now
        if 0 < wait_time then
          let now2 := now + wait_time
          ({ rl with
              weight_history := cleanup_old_entries h now2 rl.window_seconds
              wait_count := rl.wait_count + 1
              total_wait_time := rl.total_wait_time + wait_time }, wait_time)
        else record
    | [] => record
  else record

/-- `RateLimiter.update_from_response` (lines 108-139), after the
`X-MBX-USED-WEIGHT-1M` header has been found and parsed: `server_weight`
is the well-formed integer usage value delivered in the header.  If it
exceeds the locally computed current weight, a synthetic entry for the
difference is appended, timestamped `now`; the two over-threshold checks
only log. -/
def update_from_response (rl : RateLimiter) (now : ℚ) (server_weight : ℤ) :
    RateLimiter :=
  let h := cleanup_old_entries rl.weight_history now rl.window_seconds
  let current_weight := sumWeights h
  if current_weight < server_weight then
    { rl with weight_history := h ++ [(now, server_weight - current_weight)] }
  else
    { rl with weight_history := h }

end RateLimiter

/-- `n` consecutive `call` invocations whose wrapped operations all
succeed; `ts k` is the wall-clock time at which the `k`-th call runs. -/
def iterateSuccessCalls (cb : CircuitBreaker) (ts : Nat → ℚ) : Nat → CircuitBreaker
  | 0 => cb
  | n + 1 =>
      (CircuitBreaker.call (iterateSuccessCalls cb ts n) (ts n) true (ts n)).1

/-- One completed interaction with a breaker: a `call` whose wrapped
operation succeeds or fails (rejections are decided inside `call`), or a
manual `reset`. -/
inductive BreakerOp where
  | callOp (now : ℚ) (opSucceeds : Bool) (now2 : ℚ)
  | resetOp (now : ℚ)

/-- Apply one operation to a breaker. -/
def applyOp (cb : CircuitBreaker) : BreakerOp → CircuitBreaker
  | BreakerOp.callOp now b now2 => (CircuitBreaker.call cb now b now2).1
  | BreakerOp.resetOp now => cb.reset now

/-- Run a finite sequence of operations from a given breaker state. -/
def runOps (cb : CircuitBreaker) (ops : List BreakerOp) : CircuitBreaker :=
  ops.foldl applyOp cb

/-- The counting invariant of the statistics counters, together with the
reachability fact that makes the `TypeError` branch of `callAdmit`
unreachable: an OPEN breaker always has a recorded `last_failure_time`. -/
def CountersInv (cb : CircuitBreaker) : Prop :=
  cb.total_calls = cb.total_successes + cb.total_failures + cb.total_rejections ∧
  (cb.state = CircuitState.OPEN → cb.last_failure_time ≠ none)

end CopyTrading

namespace CopyTrading

open CircuitBreaker

/-- Helper: a `call` on an OPEN breaker whose timeout has not yet elapsed
only bumps `total_calls` and `total_rejections` and reports the rejection,
for either outcome of the (never invoked) wrapped operation. -/
lemma call_open_rejects (cb : CircuitBreaker) (now l now2 : ℚ) (b : Bool)
    (h1 : cb.state = CircuitState.OPEN) (h2 : cb.last_failure_time = some l)
    (h3 : now - l < cb.timeout) :
    CircuitBreaker.call cb now b now2 =
      ({ cb with
          total_calls := cb.total_calls + 1
          total_rejections := cb.total_rejections + 1 },
        CallResult.rejected cb.name cb.timeout) := by
  simp [CircuitBreaker.call, callAdmit, h1, h2, not_le.mpr h3]

/-- Helper: a `call` on a non-OPEN breaker is admitted directly. -/
lemma callAdmit_not_open (cb : CircuitBreaker) (now : ℚ)
    (h : cb.state ≠ CircuitState.OPEN) :
    callAdmit cb now =
      ({ cb with total_calls := cb.total_calls + 1 }, AdmitResult.proceed) := by
  simp [callAdmit, h]

/-- Helper: a successful `call` on a HALF_OPEN breaker bumps the
consecutive success counter and closes the breaker when it reaches the
threshold. -/
lemma call_success_half_open (cb : CircuitBreaker) (now now2 : ℚ)
    (h : cb.state = CircuitState.HALF_OPEN) :
    (CircuitBreaker.call cb now true now2).1 =
      (if cb.success_threshold ≤ cb.success_count + 1 then
        { cb with
            total_calls := cb.total_calls + 1
            total_successes := cb.total_successes + 1
            recent_results := dequeAppend cb.window_size cb.recent_results true
            state := CircuitState.CLOSED
            failure_count := 0
            success_count := 0
            last_state_change := now2 }
      else
        { cb with
            total_calls := cb.total_calls + 1
            total_successes := cb.total_successes + 1
            recent_results := dequeAppend cb.window_size cb.recent_results true
            success_count := cb.success_count + 1 }) := by
  have h' : cb.state ≠ CircuitState.OPEN := by rw [h]; intro hc; cases hc
  simp only [CircuitBreaker.call, callAdmit_not_open cb now h', if_pos,
    CircuitBreaker.on_success, h]

/-- Helper: a successful `call` on a CLOSED breaker resets the
consecutive failure counter and stays CLOSED. -/
lemma call_success_closed (cb : CircuitBreaker) (now now2 : ℚ)
    (h : cb.state = CircuitState.CLOSED) :
    (CircuitBreaker.call cb now true now2).1 =
      { cb with
          total_calls := cb.total_calls + 1
          total_successes := cb.total_successes + 1
          recent_results := dequeAppend cb.window_size cb.recent_results true
          failure_count := 0 } := by
  have h' : cb.state ≠ CircuitState.OPEN := by rw [h]; intro hc; cases hc
  simp only [CircuitBreaker.call, callAdmit_not_open cb now h',
    CircuitBreaker.on_success, h]
  rfl

/-- Helper: a failed `call` on a HALF_OPEN breaker reopens it at once. -/
lemma call_failure_half_open (cb : CircuitBreaker) (now now2 : ℚ)
    (h : cb.state = CircuitState.HALF_OPEN) :
    (CircuitBreaker.call cb now false now2).1 =
      { cb with
          total_calls := cb.total_calls + 1
          total_failures := cb.total_failures + 1
          recent_results := dequeAppend cb.window_size cb.recent_results false
          failure_count := cb.failure_count + 1
          last_failure_time := some now2
          state := CircuitState.OPEN
          success_count := 0
          last_state_change := now2 } := by
  have h' : cb.state ≠ CircuitState.OPEN := by rw [h]; intro hc; cases hc
  simp only [CircuitBreaker.call, callAdmit_not_open cb now h',
    CircuitBreaker.on_failure, h]
  rfl

/-- Helper: how `on_success` acts on the cumulative counters,
`last_failure_time` and the state. -/
lemma on_success_counters (cb : CircuitBreaker) (t : ℚ) :
    (cb.on_success t).total_calls = cb.total_calls ∧
    (cb.on_success t).total_successes = cb.total_successes + 1 ∧
    (cb.on_success t).total_failures = cb.total_failures ∧
    (cb.on_success t).total_rejections = cb.total_rejections ∧
    (cb.on_success t).last_failure_time = cb.last_failure_time ∧
    ((cb.on_success t).state = CircuitState.OPEN →
      cb.state = CircuitState.OPEN) := by
  simp only [CircuitBreaker.on_success]
  split_ifs <;> simp_all

/-- Helper: how `on_failure` acts on the cumulative counters and
`last_failure_time`. -/
lemma on_failure_counters (cb : CircuitBreaker) (t : ℚ) :
    (cb.on_failure t).total_calls = cb.total_calls ∧
    (cb.on_failure t).total_successes = cb.total_successes ∧
    (cb.on_failure t).total_failures = cb.total_failures + 1 ∧
    (cb.on_failure t).total_rejections = cb.total_rejections ∧
    (cb.on_failure t).last_failure_time = some t := by
  simp only [CircuitBreaker.on_failure]
  split_ifs <;> simp_all

/-- Helper: after the admission phase has bumped `total_calls`, running
the post-invocation handler restores the counting invariant. -/
lemma countersInv_after_handler (c : CircuitBreaker) (b : Bool) (now2 : ℚ)
    (hc : c.total_calls =
      c.total_successes + c.total_failures + c.total_rejections + 1)
    (ho : c.state = CircuitState.OPEN → c.last_failure_time ≠ none) :
    CountersInv (if b then c.on_success now2 else c.on_failure now2) := by
  cases b with
  | true =>
      obtain ⟨s1, s2, s3, s4, s5, s6⟩ := on_success_counters c now2
      refine ⟨?_, ?_⟩
      · simp only [if_pos]
        rw [s1, s2, s3, s4]
        omega
      · simp only [if_pos]
        intro hst
        rw [s5]
        exact ho (s6 hst)
  | false =>
      obtain ⟨f1, f2, f3, f4, f5⟩ := on_failure_counters c now2
      refine ⟨?_, ?_⟩
      · rw [if_neg Bool.false_ne_true, f1, f2, f3, f4]
        omega
      · rw [if_neg Bool.false_ne_true]
        intro _
        rw [f5]
        simp

/-- Helper: `CountersInv` is preserved by one completed `call`. -/
lemma countersInv_call (cb : CircuitBreaker) (now : ℚ) (b : Bool) (now2 : ℚ)
    (h : CountersInv cb) :
    CountersInv ((CircuitBreaker.call cb now b now2).1) := by
  obtain ⟨hc, ho⟩ := h
  by_cases hO : cb.state = CircuitState.OPEN
  · obtain ⟨l, hl⟩ : ∃ l, cb.last_failure_time = some l := by
      cases hlf : cb.last_failure_time with
      | none => exact absurd hlf (ho hO)
      | some l => exact ⟨l, rfl⟩
    by_cases ht : cb.timeout ≤ now - l
    · have hh := countersInv_after_handler
        { cb with
            total_calls := cb.total_calls + 1
            state := CircuitState.HALF_OPEN
            success_count := 0
            last_failure_time := some l
            last_state_change := now } b now2
        (by simp; omega) (by intro hst; simp at hst)
      simp only [CircuitBreaker.call, callAdmit, hO, hl, if_pos, ht]
      cases b <;> simpa using hh
    · simp only [CircuitBreaker.call, callAdmit, hO, hl, if_pos, if_neg ht]
      refine ⟨by simp; omega, by intro _; simp [hl]⟩
  · have hh := countersInv_after_handler
      { cb with total_calls := cb.total_calls + 1 } b now2
      (by simp; omega) (by intro hst; simp at hst; exact ho hst)
    simp only [CircuitBreaker.call, callAdmit_not_open cb now hO]
    cases b <;> simpa using hh

/-- Helper: `CountersInv` is preserved by a manual `reset`. -/
lemma countersInv_reset (cb : CircuitBreaker) (now : ℚ)
    (h : CountersInv cb) : CountersInv (cb.reset now) := by
  obtain ⟨hc, -⟩ := h
  refine ⟨by simpa [CircuitBreaker.reset] using hc, ?_⟩
  intro hst
  simp [CircuitBreaker.reset] at hst

/-- Helper: `CountersInv` holds after any finite sequence of operations
starting from a state satisfying it. -/
lemma countersInv_runOps (ops : List BreakerOp) (cb : CircuitBreaker)
    (h : CountersInv cb) : CountersInv (runOps cb ops) := by
  induction ops generalizing cb with
  | nil => simpa [runOps] using h
  | cons op rest ih =>
      have hstep : CountersInv (applyOp cb op) := by
        cases op with
        | callOp now b now2 => exact countersInv_call cb now b now2 h
        | resetOp now => exact countersInv_reset cb now h
      simpa [runOps, List.foldl_cons] using ih (applyOp cb op) hstep

/-- C6: from a freshly constructed breaker, after any finite sequence of
completed `call` invocations (rejections, successful returns or operation
failures) interleaved with `reset` operations, the statistics counters
satisfy `total_calls = total_successes + total_failures +
total_rejections`. -/
theorem C6_counter_conservation (name : String) (ft st ws : Nat)
    (tmo t0 : ℚ) (ops : List BreakerOp) :
    (runOps (mkCircuitBreaker name ft st tmo ws t0) ops).total_calls =
      (runOps (mkCircuitBreaker name ft st tmo ws t0) ops).total_successes +
      (runOps (mkCircuitBreaker name ft st tmo ws t0) ops).total_failures +
      (runOps (mkCircuitBreaker name ft st tmo ws t0) ops).total_rejections := by
  refine (countersInv_runOps ops _ ⟨rfl, ?_⟩).1
  intro hst
  simp [mkCircuitBreaker] at hst

/-- C1: the spec claims that with `failure_threshold = 3` and
`window_size = 10` three consecutive failing calls open a CLOSED breaker,
the trip decision depending solely on the consecutive `failure_count`.
On the code, the trip check is nested under
`len(recent_results) >= window_size`, so the breaker stays CLOSED at the
failing input even though `failure_count` has reached the threshold. -/
theorem C1_three_failures_leave_breaker_closed :
    (CircuitBreaker.call (CircuitBreaker.call (CircuitBreaker.call
        (mkCircuitBreaker "api" 3 2 5 10 0) 1 false 1).1 2 false 2).1
        3 false 3).1.state = CircuitState.CLOSED ∧
    (CircuitBreaker.call (CircuitBreaker.call (CircuitBreaker.call
        (mkCircuitBreaker "api" 3 2 5 10 0) 1 false 1).1 2 false 2).1
        3 false 3).1.failure_count = 3 := by
  decide

/-- C2: the spec claims `wait_if_needed` appends `(now, weight)` and bumps
`total_requests` / `total_weight_used` after the blocking sleep.  On the
code, the positive-wait branch returns the waited seconds directly without
reaching the recording block: at the failing input (effective limit 50,
history `[(0, 50)]`, request of weight 20 at `t = 10`) the method waits
50 s, yet the history and both counters are unchanged. -/
theorem C2_wait_branch_skips_recording :
    (RateLimiter.wait_if_needed
        ((RateLimiter.wait_if_needed (mkRateLimiter 100 60 (1/2)) 0 50).1)
        10 20).2 = 50 ∧
    (RateLimiter.wait_if_needed
        ((RateLimiter.wait_if_needed (mkRateLimiter 100 60 (1/2)) 0 50).1)
        10 20).1.total_requests = 1 ∧
    (RateLimiter.wait_if_needed
        ((RateLimiter.wait_if_needed (mkRateLimiter 100 60 (1/2)) 0 50).1)
        10 20).1.weight_history = [(0, 50)] ∧
    (RateLimiter.wait_if_needed
        ((RateLimiter.wait_if_needed (mkRateLimiter 100 60 (1/2)) 0 50).1)
        10 20).1.total_weight_used = 50 := by
  norm_num [mkRateLimiter, RateLimiter.wait_if_needed,
    RateLimiter.cleanup_old_entries, RateLimiter.sumWeights]

/-- C3: while OPEN, a `call` strictly before `timeout` seconds have
elapsed since `last_failure_time` is rejected without invoking the wrapped
operation — the whole result is independent of the operation outcome and
only `total_calls` and `total_rejections` change — while a `call` at or
after the timeout transitions the breaker to HALF_OPEN with
`success_count` reset, is admitted, and does invoke the operation (the
call result reflects the operation outcome). -/
theorem C3_open_timeout_gate (cb : CircuitBreaker) (now l now2 : ℚ) (b : Bool)
    (h1 : cb.state = CircuitState.OPEN) (h2 : cb.last_failure_time = some l) :
    (now - l < cb.timeout →
      CircuitBreaker.call cb now b now2 =
        ({ cb with
            total_calls := cb.total_calls + 1
            total_rejections := cb.total_rejections + 1 },
          CallResult.rejected cb.name cb.timeout)) ∧
    (cb.timeout ≤ now - l →
      (callAdmit cb now).1.state = CircuitState.HALF_OPEN ∧
      (callAdmit cb now).1.success_count = 0 ∧
      (callAdmit cb now).2 = AdmitResult.proceed ∧
      (CircuitBreaker.call cb now b now2).2 =
        (if b then CallResult.returned else CallResult.raised)) := by
  constructor
  · intro h3
    exact call_open_rejects cb now l now2 b h1 h2 h3
  · intro h3
    refine ⟨by simp [callAdmit, h1, h2, h3], by simp [callAdmit, h1, h2, h3],
      by simp [callAdmit, h1, h2, h3], ?_⟩
    simp only [CircuitBreaker.call, callAdmit, h1, h2, if_pos, h3]
    cases b <;> simp

/-- C3 witness: a breaker OPEN since `t = 0` with `timeout = 5` rejects a
call at `t = 2` and admits a call at `t = 7` as a HALF_OPEN trial. -/
theorem C3_open_timeout_gate_witness :
    (CircuitBreaker.call
        { mkCircuitBreaker "api" 3 2 5 10 0 with
            state := CircuitState.OPEN, last_failure_time := some 0 }
        2 true 2).2 = CallResult.rejected "api" 5 ∧
    (callAdmit
        { mkCircuitBreaker "api" 3 2 5 10 0 with
            state := CircuitState.OPEN, last_failure_time := some 0 }
        7).1.state = CircuitState.HALF_OPEN := by
  constructor
  · have h := (C3_open_timeout_gate
        { mkCircuitBreaker "api" 3 2 5 10 0 with
            state := CircuitState.OPEN, last_failure_time := some 0 }
        2 0 2 true rfl rfl).1 (by show (2 : ℚ) - 0 < 5; norm_num)
    rw [h]
    rfl
  · exact ((C3_open_timeout_gate
        { mkCircuitBreaker "api" 3 2 5 10 0 with
            state := CircuitState.OPEN, last_failure_time := some 0 }
        7 0 7 true rfl rfl).2 (by show (5 : ℚ) ≤ 7 - 0; norm_num)).1

/-- Helper for C4: along a run of consecutive successful calls started on
a fresh HALF_OPEN breaker, the breaker is either still HALF_OPEN with
`success_count` equal to the number of successes so far, or has closed
with both counters zeroed. -/
lemma iterateSuccess_half_open_inv (cb : CircuitBreaker) (ts : Nat → ℚ)
    (h1 : cb.state = CircuitState.HALF_OPEN) (h2 : cb.success_count = 0)
    (h3 : 1 ≤ cb.success_threshold) :
    ∀ k, k ≤ cb.success_threshold →
      (iterateSuccessCalls cb ts k).success_threshold = cb.success_threshold ∧
      ((k < cb.success_threshold ∧
          (iterateSuccessCalls cb ts k).state = CircuitState.HALF_OPEN ∧
          (iterateSuccessCalls cb ts k).success_count = k) ∨
        ((iterateSuccessCalls cb ts k).state = CircuitState.CLOSED ∧
          (iterateSuccessCalls cb ts k).failure_count = 0 ∧
          (iterateSuccessCalls cb ts k).success_count = 0)) := by
  intro k
  induction k with
  | zero =>
      intro _
      exact ⟨rfl, Or.inl ⟨h3, h1, h2⟩⟩
  | succ k ih =>
      intro hk
      obtain ⟨hth, hinv⟩ := ih (Nat.le_of_succ_le hk)
      rcases hinv with ⟨hlt, hst, hsc⟩ | ⟨hst, hfc, hsc⟩
      · rw [iterateSuccessCalls,
          call_success_half_open (iterateSuccessCalls cb ts k) (ts k) (ts k) hst]
        by_cases hcl :
            (iterateSuccessCalls cb ts k).success_threshold ≤
              (iterateSuccessCalls cb ts k).success_count + 1
        · rw [if_pos hcl]
          exact ⟨hth, Or.inr ⟨rfl, rfl, rfl⟩⟩
        · rw [if_neg hcl]
          refine ⟨hth, Or.inl ⟨?_, hst, by simp [hsc]⟩⟩
          omega
      · rw [iterateSuccessCalls,
          call_success_closed (iterateSuccessCalls cb ts k) (ts k) (ts k) hst]
        exact ⟨hth, Or.inr ⟨hst, rfl, hsc⟩⟩

/-- C4: from a HALF_OPEN breaker with a fresh trial (zero
`success_count`, positive `success_threshold`), `success_threshold`
consecutive successful calls close the breaker with both `failure_count`
and `success_count` zeroed, while a single failed call immediately
reopens it with `success_count` zeroed. -/
theorem C4_half_open_transitions (cb : CircuitBreaker) (ts : Nat → ℚ)
    (now now2 : ℚ)
    (h1 : cb.state = CircuitState.HALF_OPEN) (h2 : cb.success_count = 0)
    (h3 : 1 ≤ cb.success_threshold) :
    ((iterateSuccessCalls cb ts cb.success_threshold).state =
        CircuitState.CLOSED ∧
      (iterateSuccessCalls cb ts cb.success_threshold).failure_count = 0 ∧
      (iterateSuccessCalls cb ts cb.success_threshold).success_count = 0) ∧
    ((CircuitBreaker.call cb now false now2).1.state = CircuitState.OPEN ∧
      (CircuitBreaker.call cb now false now2).1.success_count = 0) := by
  constructor
  · obtain ⟨-, hinv⟩ :=
      iterateSuccess_half_open_inv cb ts h1 h2 h3 cb.success_threshold le_rfl
    rcases hinv with ⟨hlt, -, -⟩ | h
    · exact absurd hlt (lt_irrefl _)
    · exact h
  · rw [call_failure_half_open cb now now2 h1]
    exact ⟨rfl, rfl⟩

/-- C4 witness: a HALF_OPEN breaker with `success_threshold = 2` closes
after two successful trial calls and reopens on a single failed call. -/
theorem C4_half_open_transitions_witness :
    (iterateSuccessCalls
        { mkCircuitBreaker "api" 3 2 5 10 0 with
            state := CircuitState.HALF_OPEN }
        (fun _ => 1) 2).state = CircuitState.CLOSED ∧
    (CircuitBreaker.call
        { mkCircuitBreaker "api" 3 2 5 10 0 with
            state := CircuitState.HALF_OPEN }
        1 false 1).1.state = CircuitState.OPEN :=
  ⟨(C4_half_open_transitions
      { mkCircuitBreaker "api" 3 2 5 10 0 with
          state := CircuitState.HALF_OPEN }
      (fun _ => 1) 1 1 rfl rfl (by decide)).1.1,
    (C4_half_open_transitions
      { mkCircuitBreaker "api" 3 2 5 10 0 with
          state := CircuitState.HALF_OPEN }
      (fun _ => 1) 1 1 rfl rfl (by decide)).2.1⟩

/-- C5 counterexample: the claim says a rejected call carries the
remaining cooldown time.  At the concrete input (breaker OPEN since
`t = 0` with `timeout = 5`, call at `t = 2`) the remaining cooldown is
`5 - 2 = 3`, but the raised rejection advertises the full configured
timeout `5`. -/
theorem C5_rejection_carries_full_timeout :
    (CircuitBreaker.call
        { mkCircuitBreaker "api" 3 2 5 10 0 with
            state := CircuitState.OPEN, last_failure_time := some 0 }
        2 true 2).2 = CallResult.rejected "api" 5 ∧
    (5 : ℚ) ≠ 5 - (2 - 0) := by
  refine ⟨?_, by norm_num⟩
  have h := call_open_rejects
    { mkCircuitBreaker "api" 3 2 5 10 0 with
        state := CircuitState.OPEN, last_failure_time := some 0 }
    2 0 2 true rfl rfl (by show (2 : ℚ) - 0 < 5; norm_num)
  rw [h]
  rfl

/-- C5 (amended): while OPEN before the timeout elapses, `call` rejects
with an error naming the breaker and carrying the configured full
`timeout` (not the remaining cooldown), increments `total_rejections`
(and `total_calls`), leaves all other state unchanged, and does not invoke
the wrapped operation: the result is the same for either operation
outcome. -/
theorem C5_amended_open_rejection (cb : CircuitBreaker) (now l now2 : ℚ) (b : Bool)
    (h1 : cb.state = CircuitState.OPEN) (h2 : cb.last_failure_time = some l)
    (h3 : now - l < cb.timeout) :
    CircuitBreaker.call cb now b now2 =
      ({ cb with
          total_calls := cb.total_calls + 1
          total_rejections := cb.total_rejections + 1 },
        CallResult.rejected cb.name cb.timeout) :=
  call_open_rejects cb now l now2 b h1 h2 h3

/-- C5 witness: the amended rejection behaviour at a concrete input. -/
theorem C5_amended_open_rejection_witness :
    CircuitBreaker.call
        { mkCircuitBreaker "api" 3 2 5 10 0 with
            state := CircuitState.OPEN, last_failure_time := some 0 }
        2 true 2 =
      ({ { mkCircuitBreaker "api" 3 2 5 10 0 with
             state := CircuitState.OPEN, last_failure_time := some 0 } with
          total_calls := 0 + 1
          total_rejections := 0 + 1 },
        CallResult.rejected "api" 5) :=
  C5_amended_open_rejection _ 2 0 2 true rfl rfl
    (by show (2 : ℚ) - 0 < 5; norm_num)

/-- C8 counterexample: the claim says the `success_rate` field equals
`total_successes / total_calls`.  At a breaker with 2 calls and 1 success
the code reports `50` (a percentage), not `1/2`. -/
theorem C8_success_rate_is_percentage :
    (CircuitBreaker.get_statistics
        { mkCircuitBreaker "api" 3 2 5 10 0 with
            total_calls := 2, total_successes := 1 } 0).1.success_rate = 50 ∧
    (50 : ℚ) ≠ (1 : ℚ) / 2 := by
  constructor
  · norm_num [CircuitBreaker.get_statistics, mkCircuitBreaker]
  · norm_num

/-- C8 (amended): `get_statistics` is a read-only snapshot — the breaker
state after the call is the breaker state before it — whose
`success_rate` field is the percentage `total_successes / total_calls * 100`
whenever `total_calls > 0`, and whose `current_state_duration` field is
`now - last_state_change`. -/
theorem C8_amended_statistics_snapshot (cb : CircuitBreaker) (now : ℚ)
    (h : 0 < cb.total_calls) :
    (CircuitBreaker.get_statistics cb now).2 = cb ∧
    (CircuitBreaker.get_statistics cb now).1.success_rate * cb.total_calls =
      (cb.total_successes : ℚ) * 100 ∧
    (CircuitBreaker.get_statistics cb now).1.current_state_duration =
      now - cb.last_state_change := by
  refine ⟨rfl, ?_, rfl⟩
  have hc : ((cb.total_calls : ℚ)) ≠ 0 := by
    exact_mod_cast Nat.pos_iff_ne_zero.mp h
  simp only [CircuitBreaker.get_statistics, if_pos h]
  field_simp

/-- C8 witness: the amended statistics contract at a concrete breaker. -/
theorem C8_amended_statistics_snapshot_witness :
    (0 < (2 : Nat)) ∧
    (CircuitBreaker.get_statistics
        { mkCircuitBreaker "api" 3 2 5 10 0 with
            total_calls := 2, total_successes := 1 } 7).1.success_rate * 2 =
      (1 : ℚ) * 100 :=
  ⟨by norm_num, by
    have h := (C8_amended_statistics_snapshot
      { mkCircuitBreaker "api" 3 2 5 10 0 with
          total_calls := 2, total_successes := 1 } 7 (by norm_num)).2.1
    simpa using h⟩

/-- Helper: pruning does nothing on a history all of whose entries are
already inside the window. -/
lemma cleanup_eq_self (h : List (ℚ × ℤ)) (now ws : ℚ)
    (hp : ∀ e ∈ h, now - ws ≤ e.1) :
    RateLimiter.cleanup_old_entries h now ws = h := by
  cases h with
  | nil => rfl
  | cons a t =>
      have ha : ¬ a.1 < now - ws := not_lt.mpr (hp a (List.mem_cons_self a t))
      simp [RateLimiter.cleanup_old_entries, List.dropWhile, ha]

/-- Helper: summing weights distributes over appending one entry. -/
lemma sumWeights_append_single (h : List (ℚ × ℤ)) (e : ℚ × ℤ) :
    RateLimiter.sumWeights (h ++ [e]) = RateLimiter.sumWeights h + e.2 := by
  simp [RateLimiter.sumWeights]

/-- C7: for a history already pruned to the window (the data-model
invariant before every read) and a nonnegative window, delivering a
well-formed integer usage value `u` to `update_from_response`: when `u`
exceeds the locally computed current weight `w`, exactly the synthetic
entry `(now, u - w)` is appended and the current weight recomputed at the
same instant equals `u`; when `u ≤ w` the history is unchanged; in both
cases the tracked usage never decreases. -/
theorem C7_update_from_response_reconciles (rl : RateLimiter) (now : ℚ)
    (u : ℤ) (hw : 0 ≤ rl.window_seconds)
    (hp : ∀ e ∈ rl.weight_history, now - rl.window_seconds ≤ e.1) :
    (RateLimiter.sumWeights rl.weight_history < u →
      (RateLimiter.update_from_response rl now u).weight_history =
        rl.weight_history ++
          [(now, u - RateLimiter.sumWeights rl.weight_history)] ∧
      (RateLimiter.get_current_weight
          (RateLimiter.update_from_response rl now u).weight_history
          now rl.window_seconds).2 = u) ∧
    (u ≤ RateLimiter.sumWeights rl.weight_history →
      (RateLimiter.update_from_response rl now u).weight_history =
        rl.weight_history) ∧
    RateLimiter.sumWeights rl.weight_history ≤
      (RateLimiter.get_current_weight
        (RateLimiter.update_from_response rl now u).weight_history
        now rl.window_seconds).2 := by
  have hcl : RateLimiter.cleanup_old_entries rl.weight_history now
      rl.window_seconds = rl.weight_history :=
    cleanup_eq_self rl.weight_history now rl.window_seconds hp
  have happ : ∀ d : ℤ,
      RateLimiter.cleanup_old_entries
          (rl.weight_history ++ [(now, d)]) now rl.window_seconds =
        rl.weight_history ++ [(now, d)] := by
    intro d
    refine cleanup_eq_self _ now rl.window_seconds ?_
    intro e he
    rcases List.mem_append.mp he with h1 | h2
    · exact hp e h1
    · simp at h2
      rw [h2]
      simpa using hw
  refine ⟨?_, ?_, ?_⟩
  · intro hlt
    have hh : (RateLimiter.update_from_response rl now u).weight_history =
        rl.weight_history ++
          [(now, u - RateLimiter.sumWeights rl.weight_history)] := by
      simp only [RateLimiter.update_from_response, hcl, if_pos hlt]
    refine ⟨hh, ?_⟩
    rw [RateLimiter.get_current_weight, hh, happ]
    simp only [sumWeights_append_single]
    omega
  · intro hle
    simp only [RateLimiter.update_from_response, hcl, if_neg (not_lt.mpr hle)]
  · rcases lt_or_le (RateLimiter.sumWeights rl.weight_history) u with hlt | hle
    · have hh : (RateLimiter.update_from_response rl now u).weight_history =
          rl.weight_history ++
            [(now, u - RateLimiter.sumWeights rl.weight_history)] := by
        simp only [RateLimiter.update_from_response, hcl, if_pos hlt]
      rw [RateLimiter.get_current_weight, hh, happ]
      simp only [sumWeights_append_single]
      omega
    · have hh : (RateLimiter.update_from_response rl now u).weight_history =
          rl.weight_history := by
        simp only [RateLimiter.update_from_response, hcl,
          if_neg (not_lt.mpr hle)]
      rw [RateLimiter.get_current_weight, hh, hcl]

/-- C7 witness: spec scenario 4 — local current weight 50, server reports
80, a synthetic `+30` entry is appended and the recomputed current weight
is 80. -/
theorem C7_update_from_response_reconciles_witness :
    (RateLimiter.update_from_response
        { mkRateLimiter 100 60 (1/2) with weight_history := [(0, 50)] }
        10 80).weight_history = [(0, 50), (10, 30)] ∧
    (RateLimiter.get_current_weight
        (RateLimiter.update_from_response
          { mkRateLimiter 100 60 (1/2) with weight_history := [(0, 50)] }
          10 80).weight_history 10 60).2 = 80 := by
  have h := (C7_update_from_response_reconciles
      { mkRateLimiter 100 60 (1/2) with weight_history := [(0, 50)] }
      10 80
      (by show (0 : ℚ) ≤ 60; norm_num)
      (by
        intro e he
        show (10 : ℚ) - 60 ≤ e.1
        simp only [List.mem_singleton] at he
        rw [he]
        norm_num)).1
    (by show RateLimiter.sumWeights [((0 : ℚ), (50 : ℤ))] < 80; decide)
  refine ⟨?_, ?_⟩
  · rw [h.1]
    decide
  · exact h.2

/-- C9: `get_breaker` is get-or-create with "first writer wins": after a
first call creates the breaker for a fresh name with the supplied
configuration, a second call with any other configuration returns the
same registry and the identical breaker, whose `failure_threshold` and
`timeout` are still the values supplied at first creation. -/
theorem C9_get_breaker_first_writer_wins (m : CircuitBreakerManager)
    (name : String) (ft1 ft2 : Nat) (to1 to2 t0 t1 : ℚ)
    (h : m.breakers name = none) :
    ((CircuitBreakerManager.get_breaker m name ft1 to1 t0).1.breakers name =
        some (CircuitBreakerManager.get_breaker m name ft1 to1 t0).2) ∧
    (CircuitBreakerManager.get_breaker
        (CircuitBreakerManager.get_breaker m name ft1 to1 t0).1
        name ft2 to2 t1 =
      ((CircuitBreakerManager.get_breaker m name ft1 to1 t0).1,
        (CircuitBreakerManager.get_breaker m name ft1 to1 t0).2)) ∧
    (CircuitBreakerManager.get_breaker m name ft1 to1 t0).2.failure_threshold
        = ft1 ∧
    (CircuitBreakerManager.get_breaker m name ft1 to1 t0).2.timeout = to1 := by
  simp [CircuitBreakerManager.get_breaker, h, mkCircuitBreaker]

/-- C9 witness: creating `"api"` with `failure_threshold = 3`,
`timeout = 5` in an empty registry, then asking again with different
configuration, returns the original instance unchanged. -/
theorem C9_get_breaker_first_writer_wins_witness :
    (mkCircuitBreakerManager.breakers "api" = none) ∧
    (CircuitBreakerManager.get_breaker
        (CircuitBreakerManager.get_breaker mkCircuitBreakerManager
          "api" 3 5 0).1 "api" 7 9 1 =
      ((CircuitBreakerManager.get_breaker mkCircuitBreakerManager
          "api" 3 5 0).1,
        (CircuitBreakerManager.get_breaker mkCircuitBreakerManager
          "api" 3 5 0).2)) ∧
    (CircuitBreakerManager.get_breaker mkCircuitBreakerManager
        "api" 3 5 0).2.failure_threshold = 3 :=
  ⟨rfl,
    (C9_get_breaker_first_writer_wins mkCircuitBreakerManager
      "api" 3 7 5 9 0 1 rfl).2.1,
    (C9_get_breaker_first_writer_wins mkCircuitBreakerManager
      "api" 3 7 5 9 0 1 rfl).2.2.1⟩

/-- C10: when the pruned history is empty, `wait_if_needed` admits the
request immediately — it records `(now, weight)`, bumps the counters and
returns `0.0` — even when `weight` alone exceeds `effective_limit`,
because there is no oldest entry from which to compute a wait time. -/
theorem C10_empty_history_never_waits (rl : RateLimiter) (now : ℚ) (weight : ℤ)
    (h : RateLimiter.cleanup_old_entries rl.weight_history now rl.window_seconds = []) :
    RateLimiter.wait_if_needed rl now weight =
      ({ rl with
          weight_history := [(now, weight)]
          total_requests := rl.total_requests + 1
          total_weight_used := rl.total_weight_used + weight }, 0) := by
  simp only [RateLimiter.wait_if_needed, h, RateLimiter.sumWeights]
  split_ifs <;> simp

/-- C10 witness: a fresh limiter with `effective_limit = 50` admits a
single request of weight 100 immediately. -/
theorem C10_empty_history_never_waits_witness :
    RateLimiter.cleanup_old_entries
        (mkRateLimiter 100 60 (1/2)).weight_history 0
        (mkRateLimiter 100 60 (1/2)).window_seconds = [] ∧
    RateLimiter.wait_if_needed (mkRateLimiter 100 60 (1/2)) 0 100 =
      ({ mkRateLimiter 100 60 (1/2) with
          weight_history := [(0, 100)]
          total_requests := (mkRateLimiter 100 60 (1/2)).total_requests + 1
          total_weight_used := (mkRateLimiter 100 60 (1/2)).total_weight_used + 100 },
        0) :=
  ⟨rfl, C10_empty_history_never_waits (mkRateLimiter 100 60 (1/2)) 0 100 rfl⟩

end CopyTrading
